import Mathlib

/-!
Shallow embedding of the core of the openfoodfacts-mcp-server repository:
the dataset lifecycle manager (internal/dataset/manager.go), the query
engine's record materialization and legacy nutriments decoding
(internal/query), the record normalizer (internal/types/product.go), the
bearer-token authentication gate (internal/auth) and the HTTP server's
argument coercion and health-check cache (internal/mcpgo/server.go).

Go strings are modelled as List Char, Go float64 as Rat, Go machine ints
as Int, Go map[string]T as association lists with last-write-wins insert
(the operations used by the code are lookup, insert, delete, which are
order-insensitive up to the stated lemmas), and fallible operations as
explicit outcome oracles threaded through a filesystem state.
-/

namespace OFF

/-! Definitions. -/

/-- JSON-like values, the image of Go's encoding/json Unmarshal into an
interface value: null, booleans, numbers (float64, modelled as Rat),
strings, arrays, and objects (field lists in source order). -/
inductive Json where
  | null : Json
  | bool (b : Bool) : Json
  | num (q : Rat) : Json
  | str (s : List Char) : Json
  | arr (elems : List Json) : Json
  | obj (fields : List (List Char × Json)) : Json
mutual

/-- Decidable structural equality for Json values. -/
def Json.decEq : (a b : Json) → Decidable (a = b)
  | .null, .null => .isTrue rfl
  | .null, .bool _ => .isFalse Json.noConfusion
  | .null, .num _ => .isFalse Json.noConfusion
  | .null, .str _ => .isFalse Json.noConfusion
  | .null, .arr _ => .isFalse Json.noConfusion
  | .null, .obj _ => .isFalse Json.noConfusion
  | .bool _, .null => .isFalse Json.noConfusion
  | .bool a, .bool b =>
    match inferInstanceAs (Decidable (a = b)) with
    | .isTrue h => .isTrue (h ▸ rfl)
    | .isFalse h => .isFalse (fun hh => h (Json.bool.inj hh))
  | .bool _, .num _ => .isFalse Json.noConfusion
  | .bool _, .str _ => .isFalse Json.noConfusion
  | .bool _, .arr _ => .isFalse Json.noConfusion
  | .bool _, .obj _ => .isFalse Json.noConfusion
  | .num _, .null => .isFalse Json.noConfusion
  | .num _, .bool _ => .isFalse Json.noConfusion
  | .num a, .num b =>
    match inferInstanceAs (Decidable (a = b)) with
    | .isTrue h => .isTrue (h ▸ rfl)
    | .isFalse h => .isFalse (fun hh => h (Json.num.inj hh))
  | .num _, .str _ => .isFalse Json.noConfusion
  | .num _, .arr _ => .isFalse Json.noConfusion
  | .num _, .obj _ => .isFalse Json.noConfusion
  | .str _, .null => .isFalse Json.noConfusion
  | .str _, .bool _ => .isFalse Json.noConfusion
  | .str _, .num _ => .isFalse Json.noConfusion
  | .str a, .str b =>
    match inferInstanceAs (Decidable (a = b)) with
    | .isTrue h => .isTrue (h ▸ rfl)
    | .isFalse h => .isFalse (fun hh => h (Json.str.inj hh))
  | .str _, .arr _ => .isFalse Json.noConfusion
  | .str _, .obj _ => .isFalse Json.noConfusion
  | .arr _, .null => .isFalse Json.noConfusion
  | .arr _, .bool _ => .isFalse Json.noConfusion
  | .arr _, .num _ => .isFalse Json.noConfusion
  | .arr _, .str _ => .isFalse Json.noConfusion
  | .arr a, .arr b =>
    match Json.decEqList a b with
    | .isTrue h => .isTrue (h ▸ rfl)
    | .isFalse h => .isFalse (fun hh => h (Json.arr.inj hh))
  | .arr _, .obj _ => .isFalse Json.noConfusion
  | .obj _, .null => .isFalse Json.noConfusion
  | .obj _, .bool _ => .isFalse Json.noConfusion
  | .obj _, .num _ => .isFalse Json.noConfusion
  | .obj _, .str _ => .isFalse Json.noConfusion
  | .obj _, .arr _ => .isFalse Json.noConfusion
  | .obj a, .obj b =>
    match Json.decEqFields a b with
    | .isTrue h => .isTrue (h ▸ rfl)
    | .isFalse h => .isFalse (fun hh => h (Json.obj.inj hh))

/-- Decidable equality for lists of Json values. -/
def Json.decEqList : (a b : List Json) → Decidable (a = b)
  | [], [] => .isTrue rfl
  | [], _ :: _ => .isFalse List.noConfusion
  | _ :: _, [] => .isFalse List.noConfusion
  | x :: xs, y :: ys =>
    match Json.decEq x y with
    | .isFalse h => .isFalse (fun hh => h (List.cons.inj hh).1)
    | .isTrue h =>
      match Json.decEqList xs ys with
      | .isTrue h' => .isTrue (h ▸ h' ▸ rfl)
      | .isFalse h' => .isFalse (fun hh => h' (List.cons.inj hh).2)

/-- Decidable equality for Json object field lists. -/
def Json.decEqFields : (a b : List (List Char × Json)) → Decidable (a = b)
  | [], [] => .isTrue rfl
  | [], _ :: _ => .isFalse List.noConfusion
  | _ :: _, [] => .isFalse List.noConfusion
  | (k, x) :: xs, (k', y) :: ys =>
    match inferInstanceAs (Decidable (k = k')) with
    | .isFalse h => .isFalse (fun hh => h (congrArg Prod.fst (List.cons.inj hh).1))
    | .isTrue h =>
      match Json.decEq x y with
      | .isFalse h' => .isFalse (fun hh => h' (congrArg Prod.snd (List.cons.inj hh).1))
      | .isTrue h' =>
        match Json.decEqFields xs ys with
        | .isTrue h'' => .isTrue (h ▸ h' ▸ h'' ▸ rfl)
        | .isFalse h'' => .isFalse (fun hh => h'' (List.cons.inj hh).2)

end
instance : DecidableEq Json := Json.decEq
/-- Association-list lookup, modelling Go map indexing m[k]. -/
def lookupKey (k : List Char) : List (List Char × Json) → Option Json
  | [] => none
  | (k', v) :: rest => if k' = k then some v else lookupKey k rest
/-- Association-list insert, modelling Go map assignment m[k] = v:
replaces an existing binding in place, otherwise appends. -/
def insertKey (k : List Char) (v : Json) : List (List Char × Json) → List (List Char × Json)
  | [] => [(k, v)]
  | (k', v') :: rest => if k' = k then (k, v) :: rest else (k', v') :: insertKey k v rest
/-- Association-list delete, modelling Go delete(m, k). -/
def eraseKey (k : List Char) : List (List Char × Json) → List (List Char × Json)
  | [] => []
  | (k', v') :: rest => if k' = k then eraseKey k rest else (k', v') :: eraseKey k rest
def bearerTag : List Char := ("Bearer ").data
/-- IsAuthorized from internal/auth: empty header fails; a header without
the "Bearer " prefix fails (strings.HasPrefix is modelled as equality of
the length-7 take); an empty trimmed token fails; otherwise the token must
equal the configured token byte for byte. -/
def isAuthorized (tok header : List Char) : Bool :=
  if header = [] then false
  else if ¬ (header.take bearerTag.length = bearerTag) then false
  else
    let token := header.drop bearerTag.length
    if token = [] then false
    else decide (token = tok)
/-- Observable outcome of the /mcp handler's authentication gate. -/
structure GateOut where
  status : Option Nat
  wwwAuth : Option (List Char)
  forwarded : Bool
deriving DecidableEq
/-- The authentication gate of the /mcp route in ServeHTTP
(internal/mcpgo/server.go): unauthorized requests get the
WWW-Authenticate Bearer header (SetUnauthorizedHeaders) and status 401;
authorized requests are forwarded to the streamable HTTP server. -/
def mcpGate (tok header : List Char) : GateOut :=
  if isAuthorized tok header then
    { status := none, wwwAuth := none, forwarded := true }
  else
    { status := some 401, wwwAuth := some ("Bearer").data, forwarded := false }
def goTruncToInt (q : Rat) : Int :=
  if 0 ≤ q then ⌊q⌋ else ⌈q⌉
/-- The limit clamp shared by handleSearchProducts and
handleSearchProductsSimplified; the argument is the float value of the
"limit" argument when supplied, defaulting to 3.0 (GetFloat). -/
def handlerLimit (limitArg : Option Rat) : Int :=
  let limitFloat := limitArg.getD 3
  let l0 := goTruncToInt limitFloat
  let l1 := if l0 ≤ 0 then 3 else l0
  if l1 > 10 then 10 else l1
/-- Arguments of the engine query issued by a brand-and-name tool handler. -/
structure SearchCall where
  name : List Char
  brand : List Char
  limit : Int
deriving DecidableEq
/-- The argument-processing part of handleSearchProducts /
handleSearchProductsSimplified: after the required-parameter and
minimum-length checks, the clamped limit is used for the engine call. -/
def handleSearchArgs (name brand : List Char) (limitArg : Option Rat) : Option SearchCall :=
  if name.length < 1 then none
  else if brand.length < 1 then none
  else some { name := name, brand := brand, limit := handlerLimit limitArg }
structure Product where
  code : List Char
  productName : List Char
  brands : List Char
  nutriments : Option (List (List Char × Json))
  link : List Char
  ingredients : Option Json
  servingQuantity : Option Json
  servingQuantityUnit : List Char
  servingSize : List Char
/-- SimplifiedIngredient: id, text, percent_estimate. -/
structure SimplifiedIngredient where
  id : List Char
  text : List Char
  percentEstimate : Option Rat
deriving DecidableEq
/-- SimplifiedProduct: the lean projection returned by the simplified
search tool. -/
structure SimplifiedProduct where
  code : List Char
  productName : List Char
  brands : List Char
  link : List Char
  nutriments : Option (List (List Char × Json))
  ingredients : List SimplifiedIngredient
def kcalKey : List Char := ("energy-kcal").data
def energyKey : List Char := ("energy").data
def g100Key : List Char := ("100g").data
def servingKey : List Char := ("serving").data
def valueKey : List Char := ("value").data
def nameKey : List Char := ("name").data
def unitKey : List Char := ("unit").data
/-- The kJ-per-kcal constant 4.184 used by processNutrimentsForSimplified. -/
def kjPerKcal : Rat := 4.184
/-- One conditional kcal conversion step: if the source object holds a
float64 under the key, store the value divided by 4.184 in the
destination object, else leave the destination unchanged. -/
def updateDiv (key : List Char) (src dst : List (List Char × Json)) :
    List (List Char × Json) :=
  match lookupKey key src with
  | some (Json.num v) => insertKey key (Json.num (v / kjPerKcal)) dst
  | _ => dst
/-- Construction of kcalData from kjData in
processNutrimentsForSimplified: copy all fields, divide the numeric
100g / serving / value fields by 4.184, then rewrite name and unit. -/
def convertEnergyObj (kj : List (List Char × Json)) : List (List Char × Json) :=
  insertKey unitKey (Json.str (("kcal").data))
    (insertKey nameKey (Json.str kcalKey)
      (updateDiv valueKey kj (updateDiv servingKey kj (updateDiv g100Key kj kj))))
/-- processNutrimentsForSimplified: nil map passes through; if
"energy-kcal" is present, "energy" is deleted; else if "energy" is
present, it is converted to "energy-kcal" when its value is an object
(map), and deleted in either case. -/
def processNutrimentsForSimplified (nut : Option (List (List Char × Json))) :
    Option (List (List Char × Json)) :=
  match nut with
  | none => none
  | some m =>
    if (lookupKey kcalKey m).isSome then
      some (eraseKey energyKey m)
    else
      match lookupKey energyKey m with
      | some energyKj =>
        let m' :=
          match energyKj with
          | Json.obj kj => insertKey kcalKey (Json.obj (convertEnergyObj kj)) m
          | _ => m
        some (eraseKey energyKey m')
      | none => some m
/-- The ingredient reduction loop body of ToSimplified: an element that is
an object is reduced to id, text, percent_estimate (zero values when the
key is absent or has the wrong dynamic type) and kept only when both id
and text are non-empty; a non-object element is skipped. -/
def simplifyIngredient (x : Json) : Option SimplifiedIngredient :=
  match x with
  | Json.obj m =>
    let id :=
      match lookupKey ("id").data m with
      | some (Json.str s) => s
      | _ => []
    let text :=
      match lookupKey ("text").data m with
      | some (Json.str s) => s
      | _ => []
    let pe :=
      match lookupKey ("percent_estimate").data m with
      | some (Json.num f) => some f
      | _ => none
    if id ≠ [] ∧ text ≠ [] then some ⟨id, text, pe⟩ else none
  | _ => none
/-- ToSimplified: copy code, product name, brands, link; process the
nutriments; reduce the ingredients when they form a list, else produce
the empty list. -/
def toSimplified (p : Product) : SimplifiedProduct :=
  { code := p.code
    productName := p.productName
    brands := p.brands
    link := p.link
    nutriments := processNutrimentsForSimplified p.nutriments
    ingredients :=
      match p.ingredients with
      | some (Json.arr xs) => xs.filterMap simplifyIngredient
      | _ => [] }
/-- Statement helper: the claimed effect of the kcal conversion on one
field, per the spec sentence: numeric fields are divided by 4.184,
non-numeric fields are untouched. -/
def divIfNum (o : Option Json) : Option Json :=
  match o with
  | some (Json.num v) => some (Json.num (v / kjPerKcal))
  | o => o
/-! Dataset manager (internal/dataset/manager.go): EnsureDataset,
isUpToDate, downloadWithLock, waitForDownload, acquireLock / releaseLock,
saveMetadata. Fallible operating-system and network operations are
resolved by an outcome oracle fixed for the run; the SHA-256 function is
an abstract field of the oracle. -/

/-- Bytes of a file. -/
abbrev Content := List Nat

/-- The sidecar metadata document (struct Metadata in manager.go). -/
structure DatasetMeta where
  sha256 : Nat
  downloadedAt : Nat
  etag : List Char
  size : Nat
deriving DecidableEq

/-- Filesystem state visible to the manager: contents at parquetPath, the
parsed metadata file at metadataPath (none when missing or unreadable),
contents at the temp download path, and presence of the lock file. -/
structure FsState where
  snapshot : Option Content
  metadata : Option DatasetMeta
  tmp : Option Content
  lockFileExists : Bool
deriving DecidableEq

/-- Configuration consulted by the manager. -/
structure MgrConfig where
  disableRemoteCheck : Bool
  ignoreLock : Bool
deriving DecidableEq

/-- Remote metadata captured by a HEAD probe (ETag header, Content-Length). -/
structure RemoteMeta where
  etag : List Char
  size : Nat
deriving DecidableEq

/-- Outcome oracle for one manager run: which fallible operations succeed
and what external values they produce. hash is the SHA-256 function,
abstract over byte lists; probe and probeDl are the results of the two
getRemoteMetadata calls (none: the HEAD request failed). waitOutcome is
the filesystem state observed when the wait-for-download poll first sees
the snapshot (none: the 10-minute timeout or context cancellation fires
first). -/
structure MgrOracle where
  hash : Content → Nat
  probe : Option RemoteMeta
  acquireOk : Bool
  removeLockOk : Bool
  mkdirDataOk : Bool
  getwdOk : Bool
  mkdirTmpOk : Bool
  downloadOk : Bool
  downloadContent : Content
  shaOk : Bool
  statOk : Bool
  probeDl : Option RemoteMeta
  saveMetaOk : Bool
  removeOldOk : Bool
  copyOk : Bool
  waitOutcome : Option FsState
  nowSec : Nat

/-- Error kinds escaping downloadWithLock / EnsureDataset. -/
inductive MgrErr where
  | mkdirFailed : MgrErr
  | getwdFailed : MgrErr
  | mkdirTmpFailed : MgrErr
  | downloadFailed : MgrErr
  | shaFailed : MgrErr
  | statFailed : MgrErr
  | removeOldFailed : MgrErr
  | copyFailed : MgrErr
  | waitTimeout : MgrErr
deriving DecidableEq

/-- isUpToDate: load local metadata (missing metadata reads as stale with
no error); HEAD-probe the remote (failure reads as stale with an error
that EnsureDataset only logs as a warning); compare ETags when both are
non-empty, else compare sizes. Returns (upToDate, probeErrOccurred). -/
def isUpToDate (o : MgrOracle) (fs : FsState) : Bool × Bool :=
  match fs.metadata with
  | none => (false, false)
  | some localMeta =>
    match o.probe with
    | none => (false, true)
    | some remoteMeta =>
      if remoteMeta.etag ≠ [] ∧ localMeta.etag ≠ [] then
        (decide (remoteMeta.etag = localMeta.etag), false)
      else
        (decide (remoteMeta.size = localMeta.size), false)

/-- The body of downloadWithLock after the lock decision: create the data
and tmp-data directories, stream the download into the temp file (removed
again on failure), compute SHA-256 and size of the temp file (removed on
failure), capture the remote ETag with a tolerated second probe, save the
sidecar metadata (failure only logged), then promote by removing the old
snapshot (temp removed, old snapshot kept on removal failure) and copying
the temp file over (modelled create-failure leaves no file at the
snapshot path; a partial file is equally possible in the source — in
either case the old bytes are gone), finally removing the temp file. -/
def downloadBody (o : MgrOracle) (fs0 : FsState) : Option MgrErr × FsState :=
  if ¬ o.mkdirDataOk then (some MgrErr.mkdirFailed, fs0)
  else if ¬ o.getwdOk then (some MgrErr.getwdFailed, fs0)
  else if ¬ o.mkdirTmpOk then (some MgrErr.mkdirTmpFailed, fs0)
  else if ¬ o.downloadOk then (some MgrErr.downloadFailed, { fs0 with tmp := none })
  else
    let fs1 : FsState := { fs0 with tmp := some o.downloadContent }
    if ¬ o.shaOk then (some MgrErr.shaFailed, { fs1 with tmp := none })
    else if ¬ o.statOk then (some MgrErr.statFailed, { fs1 with tmp := none })
    else
      let etag := match o.probeDl with
        | some rm => rm.etag
        | none => []
      let meta : DatasetMeta :=
        { sha256 := o.hash o.downloadContent
          downloadedAt := o.nowSec
          etag := etag
          size := o.downloadContent.length }
      let fs2 := if o.saveMetaOk then { fs1 with metadata := some meta } else fs1
      match fs2.snapshot with
      | some _ =>
        if ¬ o.removeOldOk then (some MgrErr.removeOldFailed, { fs2 with tmp := none })
        else
          let fs3 : FsState := { fs2 with snapshot := none }
          if ¬ o.copyOk then (some MgrErr.copyFailed, { fs3 with tmp := none })
          else (none, { fs3 with snapshot := some o.downloadContent, tmp := none })
      | none =>
        if ¬ o.copyOk then (some MgrErr.copyFailed, { fs2 with tmp := none })
        else (none, { fs2 with snapshot := some o.downloadContent, tmp := none })

/-- The lock-acquisition guard of downloadWithLock: after the optional
IGNORE_LOCK forced removal, acquireLock (O_CREATE with O_EXCL) succeeds
only when no lock file exists and the create call itself succeeds. -/
def dlLockRemoved (cfg : MgrConfig) (o : MgrOracle) (fs0 : FsState) : FsState :=
  if cfg.ignoreLock ∧ fs0.lockFileExists ∧ o.removeLockOk then
    { fs0 with lockFileExists := false }
  else fs0

/-- Whether acquireLock succeeds in downloadWithLock. -/
def dlAcquired (cfg : MgrConfig) (o : MgrOracle) (fs0 : FsState) : Bool :=
  ¬ (dlLockRemoved cfg o fs0).lockFileExists ∧ o.acquireOk

/-- Result of downloadWithLock: error, final filesystem state, whether
the wait-for-other-instance loop ran, whether the body ran holding the
lock, and whether the body (download and promotion) ran at all. -/
structure DlResult where
  err : Option MgrErr
  fs : FsState
  waited : Bool
  lockHeld : Bool
  downloaded : Bool
deriving DecidableEq

/-- waitForDownload: poll until the snapshot appears (the oracle supplies
the state another instance produced), else time out. -/
def waitForDownload (o : MgrOracle) (fs1 : FsState) : Option MgrErr × FsState :=
  match o.waitOutcome with
  | some fsW =>
    if fsW.snapshot.isSome then (none, fsW)
    else (some MgrErr.waitTimeout, fs1)
  | none => (some MgrErr.waitTimeout, fs1)

/-- downloadWithLock: under IGNORE_LOCK an existing lock file is forcibly
removed (failure only logged); then acquireLock is attempted; on failure
with IGNORE_LOCK set the download proceeds without the lock, on failure
without IGNORE_LOCK the call waits for the other instance; the lock is
released by the deferred releaseLock only when it was acquired. -/
def downloadWithLock (cfg : MgrConfig) (o : MgrOracle) (fs0 : FsState) : DlResult :=
  let fs1 := dlLockRemoved cfg o fs0
  if dlAcquired cfg o fs0 then
    let fs2 : FsState := { fs1 with lockFileExists := true }
    let r := downloadBody o fs2
    { err := r.1
      fs := { r.2 with lockFileExists := false }
      waited := false
      lockHeld := true
      downloaded := true }
  else if cfg.ignoreLock then
    let r := downloadBody o fs1
    { err := r.1, fs := r.2, waited := false, lockHeld := false, downloaded := true }
  else
    let r := waitForDownload o fs1
    { err := r.1, fs := r.2, waited := true, lockHeld := false, downloaded := false }

/-- Result of EnsureDataset. -/
structure EnsureResult where
  err : Option MgrErr
  fs : FsState
  enteredDownload : Bool
  waited : Bool
  lockHeld : Bool
  probeWarned : Bool
deriving DecidableEq

/-- EnsureDataset: if the snapshot file exists, return success when remote
checks are disabled or the freshness comparison says up-to-date (a probe
failure is logged as a warning and then treated as stale); otherwise run
downloadWithLock. -/
def ensureDataset (cfg : MgrConfig) (o : MgrOracle) (fs0 : FsState) : EnsureResult :=
  if fs0.snapshot.isSome then
    if cfg.disableRemoteCheck then
      { err := none, fs := fs0, enteredDownload := false, waited := false,
        lockHeld := false, probeWarned := false }
    else
      let u := isUpToDate o fs0
      if u.1 then
        { err := none, fs := fs0, enteredDownload := false, waited := false,
          lockHeld := false, probeWarned := u.2 }
      else
        let d := downloadWithLock cfg o fs0
        { err := d.err, fs := d.fs, enteredDownload := true, waited := d.waited,
          lockHeld := d.lockHeld, probeWarned := u.2 }
  else
    let d := downloadWithLock cfg o fs0
    { err := d.err, fs := d.fs, enteredDownload := true, waited := d.waited,
      lockHeld := d.lockHeld, probeWarned := false }

/-- The snapshot-metadata coherence invariant: when a snapshot is present,
the metadata file describes it (its sha256 field is the hash of the
snapshot bytes). -/
def MetaInv (o : MgrOracle) (fs : FsState) : Prop :=
  ∀ c, fs.snapshot = some c →
    ∃ md, fs.metadata = some md ∧ md.sha256 = o.hash c

/-! Legacy nutriments decoding (internal/query, part_014):
convertPythonListToJSON and parseNutrimentsJSON, together with a model of
Go's encoding/json Unmarshal (recursive-descent JSON reader, numbers as
float64 modelled exactly on Rat) and Marshal (map keys sorted, strings
escaped, HTML-escaping defaults). -/

/-- The single-quote character. -/
def singleQuoteChar : Char := Char.ofNat 39

/-- The double-quote character. -/
def doubleQuoteChar : Char := Char.ofNat 34

/-- The backslash character. -/
def backslashChar : Char := Char.ofNat 92

/-- JSON insignificant whitespace accepted by encoding/json. -/
def isJsonWS (c : Char) : Bool :=
  c = ' ' || c = '\t' || c = '\n' || c = '\r'

/-- Skip insignificant whitespace. -/
def skipWS (s : List Char) : List Char := s.dropWhile isJsonWS

/-- ASCII digit test. -/
def isDigitChar (c : Char) : Bool := decide ('0' ≤ c) && decide (c ≤ '9')

/-- Value of an ASCII digit. -/
def digitVal (c : Char) : Nat := c.toNat - 48

/-- Natural number denoted by a digit string. -/
def digitsToNat (ds : List Char) : Nat :=
  ds.foldl (fun acc c => acc * 10 + digitVal c) 0

/-- ASCII hex digit test. -/
def isHexChar (c : Char) : Bool :=
  isDigitChar c || (decide ('a' ≤ c) && decide (c ≤ 'f')) ||
    (decide ('A' ≤ c) && decide (c ≤ 'F'))

/-- Value of an ASCII hex digit. -/
def hexVal (c : Char) : Nat :=
  if isDigitChar c then c.toNat - 48
  else if decide ('a' ≤ c) && decide (c ≤ 'f') then c.toNat - 87
  else c.toNat - 55

/-- JSON string body after the opening quote: literal characters up to the
closing quote, with the standard escapes (a \u escape is decoded to the
code point; surrogate-pair recombination is not modelled and does not
arise in the claims). -/
def parseStringBody : Nat → List Char → Option (List Char × List Char)
  | 0, _ => none
  | _ + 1, [] => none
  | fuel + 1, c :: rest =>
    if c = doubleQuoteChar then some ([], rest)
    else if c = backslashChar then
      match rest with
      | [] => none
      | e :: rest2 =>
        let decoded : Option (Char × List Char) :=
          if e = doubleQuoteChar then some (doubleQuoteChar, rest2)
          else if e = backslashChar then some (backslashChar, rest2)
          else if e = '/' then some ('/', rest2)
          else if e = 'b' then some (Char.ofNat 8, rest2)
          else if e = 'f' then some (Char.ofNat 12, rest2)
          else if e = 'n' then some ('\n', rest2)
          else if e = 'r' then some ('\r', rest2)
          else if e = 't' then some ('\t', rest2)
          else if e = 'u' then
            match rest2 with
            | h1 :: h2 :: h3 :: h4 :: rest3 =>
              if isHexChar h1 && isHexChar h2 && isHexChar h3 && isHexChar h4 then
                some (Char.ofNat
                  (((hexVal h1 * 16 + hexVal h2) * 16 + hexVal h3) * 16 + hexVal h4), rest3)
              else none
            | _ => none
          else none
        match decoded with
        | some (ch, rest3) =>
          match parseStringBody fuel rest3 with
          | some (s, r) => some (ch :: s, r)
          | none => none
        | none => none
    else
      match parseStringBody fuel rest with
      | some (s, r) => some (c :: s, r)
      | none => none

/-- Fractional part of a JSON number: a dot must be followed by at least
one digit; absence of a dot is an empty fraction. -/
def parseFrac (s : List Char) : Option (List Char × List Char) :=
  match s with
  | c :: rest =>
    if c = '.' then
      let ds := rest.takeWhile isDigitChar
      if ds = [] then none else some (ds, rest.drop ds.length)
    else some ([], s)
  | [] => some ([], [])

/-- Exponent part of a JSON number. -/
def parseExp (s : List Char) : Option (Int × List Char) :=
  match s with
  | c :: rest =>
    if c = 'e' ∨ c = 'E' then
      let signAndRest : Int × List Char :=
        match rest with
        | d :: r2 => if d = '+' then (1, r2) else if d = '-' then (-1, r2) else (1, rest)
        | [] => (1, rest)
      let ds := signAndRest.2.takeWhile isDigitChar
      if ds = [] then none
      else some (signAndRest.1 * (digitsToNat ds : Int), signAndRest.2.drop ds.length)
    else some (0, s)
  | [] => some (0, [])

/-- JSON number: optional minus, integer part without leading zeros,
optional fraction and exponent; the denoted value, exactly, as a Rat. -/
def parseNumber (s : List Char) : Option (Rat × List Char) :=
  let signAndRest : Bool × List Char :=
    match s with
    | c :: rest => if c = '-' then (true, rest) else (false, s)
    | [] => (false, s)
  let intDigits := signAndRest.2.takeWhile isDigitChar
  let s2 := signAndRest.2.drop intDigits.length
  if intDigits = [] then none
  else if intDigits.length > 1 ∧ intDigits.head? = some '0' then none
  else
    match parseFrac s2 with
    | none => none
    | some (fds, s3) =>
      match parseExp s3 with
      | none => none
      | some (ex, s4) =>
        let mant : Nat := digitsToNat (intDigits ++ fds)
        let base : Rat := (mant : Rat) / ((10 : Rat) ^ fds.length)
        let signed := if signAndRest.1 then -base else base
        some (signed * (10 : Rat) ^ ex, s4)

mutual

/-- Recursive-descent reader for one JSON value; fuel bounds the call
depth (two fuel units per input character suffice). -/
def parseJsonVal : Nat → List Char → Option (Json × List Char)
  | 0, _ => none
  | fuel + 1, s =>
    match skipWS s with
    | [] => none
    | c :: rest =>
      if c = 'n' then
        match rest with
        | 'u' :: 'l' :: 'l' :: r => some (Json.null, r)
        | _ => none
      else if c = 't' then
        match rest with
        | 'r' :: 'u' :: 'e' :: r => some (Json.bool true, r)
        | _ => none
      else if c = 'f' then
        match rest with
        | 'a' :: 'l' :: 's' :: 'e' :: r => some (Json.bool false, r)
        | _ => none
      else if c = doubleQuoteChar then
        match parseStringBody (rest.length + 1) rest with
        | some (str, r) => some (Json.str str, r)
        | none => none
      else if c = '[' then parseArrItems fuel (skipWS rest)
      else if c = '{' then parseObjItems fuel (skipWS rest)
      else if c = '-' ∨ isDigitChar c then
        match parseNumber (c :: rest) with
        | some (q, r) => some (Json.num q, r)
        | none => none
      else none

/-- Array items after the opening bracket (whitespace already skipped). -/
def parseArrItems : Nat → List Char → Option (Json × List Char)
  | 0, _ => none
  | fuel + 1, s =>
    match s with
    | ']' :: r => some (Json.arr [], r)
    | _ =>
      match parseJsonVal fuel s with
      | some (v, r) =>
        match parseArrRest fuel (skipWS r) with
        | some (vs, r2) => some (Json.arr (v :: vs), r2)
        | none => none
      | none => none

/-- Array continuation: comma-separated values up to the closing bracket. -/
def parseArrRest : Nat → List Char → Option (List Json × List Char)
  | 0, _ => none
  | fuel + 1, s =>
    match s with
    | ']' :: r => some ([], r)
    | ',' :: r =>
      match parseJsonVal fuel r with
      | some (v, r2) =>
        match parseArrRest fuel (skipWS r2) with
        | some (vs, r3) => some (v :: vs, r3)
        | none => none
      | none => none
    | _ => none

/-- Object items after the opening brace (whitespace already skipped). -/
def parseObjItems : Nat → List Char → Option (Json × List Char)
  | 0, _ => none
  | fuel + 1, s =>
    match s with
    | c :: r =>
      if c = '}' then some (Json.obj [], r)
      else
        match parseObjPair fuel (c :: r) with
        | some (kv, r2) =>
          match parseObjRest fuel (skipWS r2) with
          | some (kvs, r3) => some (Json.obj (kv :: kvs), r3)
          | none => none
        | none => none
    | [] => none

/-- One key-value pair of an object. -/
def parseObjPair : Nat → List Char → Option ((List Char × Json) × List Char)
  | 0, _ => none
  | fuel + 1, s =>
    match skipWS s with
    | c :: rest =>
      if c = doubleQuoteChar then
        match parseStringBody (rest.length + 1) rest with
        | some (k, r) =>
          match skipWS r with
          | ':' :: r2 =>
            match parseJsonVal fuel r2 with
            | some (v, r3) => some ((k, v), r3)
            | none => none
          | _ => none
        | none => none
      else none
    | [] => none

/-- Object continuation: comma-separated pairs up to the closing brace. -/
def parseObjRest : Nat → List Char → Option (List (List Char × Json) × List Char)
  | 0, _ => none
  | fuel + 1, s =>
    match s with
    | c :: r =>
      if c = '}' then some ([], r)
      else if c = ',' then
        match parseObjPair fuel r with
        | some (kv, r2) =>
          match parseObjRest fuel (skipWS r2) with
          | some (kvs, r3) => some (kv :: kvs, r3)
          | none => none
        | none => none
      else none
    | [] => none

end

/-- encoding/json Unmarshal of a whole input: one value, then only
trailing whitespace. -/
def unmarshalJson (s : List Char) : Option Json :=
  match parseJsonVal (2 * s.length + 4) s with
  | some (v, r) => if skipWS r = [] then some v else none
  | none => none

/-- Collapse of an object field list into a Go map: later bindings of the
same key overwrite earlier ones. -/
def goMapFieldsCollapse (fs : List (List Char × Json)) : List (List Char × Json) :=
  fs.foldl (fun acc kv => insertKey kv.1 kv.2 acc) []

mutual

/-- Image of a parsed JSON value as a Go interface value built by
Unmarshal: every object becomes a map (duplicate keys collapse, last
binding wins), recursively. -/
def goNormalize : Json → Json
  | Json.null => Json.null
  | Json.bool b => Json.bool b
  | Json.num q => Json.num q
  | Json.str s => Json.str s
  | Json.arr xs => Json.arr (goNormalizeList xs)
  | Json.obj fs => Json.obj (goMapFieldsCollapse (goNormalizeFields fs))

/-- goNormalize over a list of values. -/
def goNormalizeList : List Json → List Json
  | [] => []
  | x :: xs => goNormalize x :: goNormalizeList xs

/-- goNormalize over the values of a field list. -/
def goNormalizeFields : List (List Char × Json) → List (List Char × Json)
  | [] => []
  | (k, v) :: rest => (k, goNormalize v) :: goNormalizeFields rest

end

/-- Unmarshal into a Go slice of maps: the top value must be an array and
every element an object. -/
def unmarshalArrayOfObjects (s : List Char) : Option (List (List (List Char × Json))) :=
  match unmarshalJson s with
  | some (Json.arr xs) =>
    (xs.map goNormalize).mapM (fun x =>
      match x with
      | Json.obj f => some f
      | _ => none)
  | _ => none

/-- Fueled scan of strings.ReplaceAll; every step consumes at least one
character, so fuel equal to the input length suffices. -/
def replaceAllAux (pat rep : List Char) : Nat → List Char → List Char
  | 0, s => s
  | _ + 1, [] => []
  | fuel + 1, c :: rest =>
    if pat ≠ [] ∧ pat.isPrefixOf (c :: rest) then
      rep ++ replaceAllAux pat rep fuel ((c :: rest).drop pat.length)
    else
      c :: replaceAllAux pat rep fuel rest

/-- strings.ReplaceAll: replace every non-overlapping occurrence of pat,
scanning left to right (the code never passes an empty pattern; an empty
pattern is modelled as the identity). -/
def replaceAll (pat rep : List Char) (s : List Char) : List Char :=
  replaceAllAux pat rep s.length s

/-- The ordered None / NULL / none to null replacement table of
convertPythonListToJSON. -/
def nullReplacements : List (List Char × List Char) :=
  [ ((" None").data, (" null").data)
  , (("[None").data, ("[null").data)
  , ((",None").data, (",null").data)
  , (("None]").data, ("null]").data)
  , (("None,").data, ("null,").data)
  , ((": None").data, (": null").data)
  , ((" NULL").data, (" null").data)
  , (("[NULL").data, ("[null").data)
  , ((",NULL").data, (",null").data)
  , (("NULL]").data, ("null]").data)
  , (("NULL,").data, ("null,").data)
  , ((": NULL").data, (": null").data)
  , ((" none").data, (" null").data)
  , (("[none").data, ("[null").data)
  , ((",none").data, (",null").data)
  , (("none]").data, ("null]").data)
  , (("none,").data, ("null,").data)
  , ((": none").data, (": null").data) ]

/-- First character class of the bare-identifier regex group. -/
def isG1Start (c : Char) : Bool :=
  (decide ('a' ≤ c) && decide (c ≤ 'z')) || (decide ('A' ≤ c) && decide (c ≤ 'Z')) || c = '%'

/-- RE2 whitespace class inside the bare-identifier group. -/
def isRegexSpace (c : Char) : Bool :=
  c = ' ' || c = '\t' || c = '\n' || c = '\x0c' || c = '\r'

/-- Continuation character class of the bare-identifier group. -/
def isG1Cont (c : Char) : Bool :=
  (decide ('a' ≤ c) && decide (c ≤ 'z')) || (decide ('A' ≤ c) && decide (c ≤ 'Z')) ||
    isDigitChar c || c = '-' || c = '_' || c = '%' || isRegexSpace c

/-- Terminator character class of the regex (space, comma, closing brace
or bracket). -/
def isG2 (c : Char) : Bool :=
  c = ' ' || c = ',' || c = '}' || c = ']'

/-- Index of the last terminator-class character in a run (for the greedy
backtracking step of the regex match). -/
def findLastG2 : List Char → Option Nat
  | [] => none
  | c :: rest =>
    match findLastG2 rest with
    | some i => some (i + 1)
    | none => if isG2 c then some 0 else none

/-- Leftmost-greedy match of the bare-identifier regex body right after a
": " occurrence: the identifier (first char in the start class, the rest
a greedy run of the continuation class backtracked to the last position
that leaves a terminator), the terminator, and the remaining input. -/
def tryQuoteMatch : List Char → Option (List Char × Char × List Char)
  | [] => none
  | c :: r0 =>
    if isG1Start c then
      let run := r0.takeWhile isG1Cont
      let after := r0.drop run.length
      let fallback : Option (List Char × Char × List Char) :=
        match findLastG2 run with
        | some i => some (c :: run.take i, run.getD i ' ', r0.drop (i + 1))
        | none => none
      match after with
      | d :: rest' => if isG2 d then some (c :: run, d, rest') else fallback
      | [] => fallback
    else none

/-- One left-to-right pass of the regex replacement
re.ReplaceAllStringFunc: each non-overlapping ": identifier<term>" match
is rewritten with the identifier quoted, except the identifier null,
which is left as is (re-running FindStringSubmatch on the matched text
reproduces the same split, so that step is the identity and not modelled
separately). Fuel bounds the recursion; one unit per consumed character
suffices. -/
def quoteBareAux : Nat → List Char → List Char
  | 0, s => s
  | _ + 1, [] => []
  | fuel + 1, c :: rest =>
    if c = ':' then
      match rest with
      | c2 :: rest2 =>
        if c2 = ' ' then
          match tryQuoteMatch rest2 with
          | some (value, g2, rest') =>
            if value = ("null").data then
              ':' :: ' ' :: (value ++ g2 :: quoteBareAux fuel rest')
            else
              ':' :: ' ' :: doubleQuoteChar ::
                (value ++ doubleQuoteChar :: g2 :: quoteBareAux fuel rest')
          | none => ':' :: quoteBareAux fuel rest
        else ':' :: quoteBareAux fuel rest
      | [] => [':']
    else c :: quoteBareAux fuel rest

/-- The regex-based quoting of bare identifier values. -/
def quoteBare (s : List Char) : List Char := quoteBareAux s.length s

/-- convertPythonListToJSON: the empty input becomes the empty array;
otherwise single quotes become double quotes, the None / NULL / none
table is applied in order, and remaining bare identifiers in value
position are quoted. -/
def convertPythonListToJSON (pythonStr : List Char) : List Char :=
  if pythonStr = [] then ("[]").data
  else
    quoteBare
      (nullReplacements.foldl (fun acc pr => replaceAll pr.1 pr.2 acc)
        (replaceAll [singleQuoteChar] [doubleQuoteChar] pythonStr))

/-- parseNutrimentsJSON: a NULL or empty column yields the empty map; the
converted text must parse as an array of objects, else the row degrades
to the empty map; the array is grouped into a map keyed by each object's
non-empty string name field. -/
def parseNutrimentsJSON (nutrimentsStr : Option (List Char)) : List (List Char × Json) :=
  match nutrimentsStr with
  | none => []
  | some s =>
    if s = [] then []
    else
      match unmarshalArrayOfObjects (convertPythonListToJSON s) with
      | none => []
      | some objs =>
        objs.foldl (fun acc fields =>
          match lookupKey nameKey fields with
          | some (Json.str nm) => if nm ≠ [] then insertKey nm (Json.obj fields) acc else acc
          | _ => acc) []

/-- The nutriments decoder applied to a present column value. -/
def decodeNutriments (s : List Char) : List (List Char × Json) :=
  parseNutrimentsJSON (some s)

/-- Lexicographic byte order on strings, the order in which encoding/json
Marshal emits map keys. -/
def charListLe : List Char → List Char → Bool
  | [], _ => true
  | _ :: _, [] => false
  | x :: xs, y :: ys => if x = y then charListLe xs ys else decide (x < y)

/-- Insertion into a list sorted by le. -/
def insertLeBy {α : Type} (le : α → α → Bool) (x : α) : List α → List α
  | [] => [x]
  | y :: ys => if le x y then x :: y :: ys else y :: insertLeBy le x ys

/-- Insertion sort by le. -/
def sortLeBy {α : Type} (le : α → α → Bool) : List α → List α
  | [] => []
  | x :: xs => insertLeBy le x (sortLeBy le xs)

/-- Field order used by Marshal for maps: ascending key. -/
def fieldKeyLe (a b : List Char × Json) : Bool := charListLe a.1 b.1

mutual

/-- Prepares a Go value for Marshal output: map fields are emitted in
sorted key order at every level. -/
def sortJsonAll : Json → Json
  | Json.null => Json.null
  | Json.bool b => Json.bool b
  | Json.num q => Json.num q
  | Json.str s => Json.str s
  | Json.arr xs => Json.arr (sortJsonAllList xs)
  | Json.obj fs => Json.obj (sortLeBy fieldKeyLe (sortJsonAllFields fs))

/-- sortJsonAll over a list of values. -/
def sortJsonAllList : List Json → List Json
  | [] => []
  | x :: xs => sortJsonAll x :: sortJsonAllList xs

/-- sortJsonAll over the values of a field list. -/
def sortJsonAllFields : List (List Char × Json) → List (List Char × Json)
  | [] => []
  | (k, v) :: rest => (k, sortJsonAll v) :: sortJsonAllFields rest

end

/-- Hex digit character (lower case, as encoding/json emits). -/
def hexDigitChar (n : Nat) : Char :=
  if n < 10 then Char.ofNat (48 + n) else Char.ofNat (87 + n)

/-- Marshal string escaping: quote, backslash, the HTML characters, and
control characters. -/
def escapeChar (c : Char) : List Char :=
  if c = doubleQuoteChar then [backslashChar, doubleQuoteChar]
  else if c = backslashChar then [backslashChar, backslashChar]
  else if c = '\n' then [backslashChar, 'n']
  else if c = '\r' then [backslashChar, 'r']
  else if c = '\t' then [backslashChar, 't']
  else if c = '<' then [backslashChar, 'u', '0', '0', '3', 'c']
  else if c = '>' then [backslashChar, 'u', '0', '0', '3', 'e']
  else if c = '&' then [backslashChar, 'u', '0', '0', '2', '6']
  else if c.toNat < 32 then
    [backslashChar, 'u', '0', '0', hexDigitChar (c.toNat / 16), hexDigitChar (c.toNat % 16)]
  else [c]

/-- Marshal escaping of a whole string body. -/
def escapeStr (s : List Char) : List Char := (s.map escapeChar).flatten

/-- Digit string of a natural number. -/
def natDigitsAux : Nat → Nat → List Char → List Char
  | 0, _, acc => acc
  | fuel + 1, n, acc =>
    if n < 10 then Char.ofNat (48 + n) :: acc
    else natDigitsAux fuel (n / 10) (Char.ofNat (48 + n % 10) :: acc)

/-- Digit string of a natural number. -/
def natDigits (n : Nat) : List Char := natDigitsAux (n + 1) n []

/-- Digit string of an integer. -/
def intDigits (n : Int) : List Char :=
  if n < 0 then '-' :: natDigits n.natAbs else natDigits n.natAbs

/-- Fractional digit expansion of rem / den, up to the given number of
digits. -/
def fracDigitsAux : Nat → Nat → Nat → List Char
  | 0, _, _ => []
  | fuel + 1, rem, den =>
    if rem = 0 then []
    else Char.ofNat (48 + rem * 10 / den) :: fracDigitsAux fuel (rem * 10 % den) den

/-- Number formatting of Marshal for the float64 values arising here:
integers without a fractional part, other values as plain decimals (the
claims never observe the encoding of numbers that lack a short exact
decimal form). -/
def encodeNum (q : Rat) : List Char :=
  if q.den = 1 then intDigits q.num
  else
    let sign : List Char := if q.num < 0 then ['-'] else []
    let a := q.num.natAbs
    sign ++ natDigits (a / q.den) ++ '.' :: fracDigitsAux 17 (a % q.den) q.den

mutual

/-- Marshal rendering of a value whose maps are already in emission
order. -/
def encodeJsonRaw : Json → List Char
  | Json.null => ("null").data
  | Json.bool true => ("true").data
  | Json.bool false => ("false").data
  | Json.num q => encodeNum q
  | Json.str s => doubleQuoteChar :: escapeStr s ++ [doubleQuoteChar]
  | Json.arr xs => '[' :: encodeArrItems xs ++ [']']
  | Json.obj fs => '{' :: encodeObjItems fs ++ ['}']

/-- Comma-separated rendering of array items. -/
def encodeArrItems : List Json → List Char
  | [] => []
  | [x] => encodeJsonRaw x
  | x :: y :: rest => encodeJsonRaw x ++ ',' :: encodeArrItems (y :: rest)

/-- Comma-separated rendering of object fields. -/
def encodeObjItems : List (List Char × Json) → List Char
  | [] => []
  | [(k, v)] => doubleQuoteChar :: escapeStr k ++ doubleQuoteChar :: ':' :: encodeJsonRaw v
  | (k, v) :: rest =>
    (doubleQuoteChar :: escapeStr k ++ doubleQuoteChar :: ':' :: encodeJsonRaw v) ++
      ',' :: encodeObjItems rest

end

/-- encoding/json Marshal of a Go interface value. -/
def encodeGo (v : Json) : List Char := encodeJsonRaw (sortJsonAll v)

/-- Marshal of the decoded nutriments mapping (a Go
map from string to interface). -/
def encodeNutrientsMap (m : List (List Char × Json)) : List Char := encodeGo (Json.obj m)

/-! Query engine search (internal/query, part_014,
SearchProductsByBrandAndName): relational semantics of the four SQL plan
shapes over a list of parquet rows, followed by the scan loop that
materializes Product records. ILIKE with the %needle% pattern is
substring containment after lower-casing (needles containing the LIKE
metacharacters percent and underscore are interpolated verbatim by the
source and are outside this model). -/

/-- One lang-text struct of the product_name column. -/
structure LangText where
  lang : Option (List Char)
  text : Option (List Char)
deriving DecidableEq

/-- One parquet row with the columns the queries read; every column is
nullable. -/
structure Row where
  code : Option (List Char)
  productName : Option (List LangText)
  brands : Option (List Char)
  nutriments : Option (List Char)
  link : Option (List Char)
  ingredients : Option (List Char)
  servingQuantity : Option (List Char)
  productQuantityUnit : Option (List Char)
  servingSize : Option (List Char)
deriving DecidableEq

/-- Surrogate for DuckDB's CAST of a lang-text struct to VARCHAR
(its exact rendering is not observable by any claim). -/
def castLangText (e : LangText) : List Char :=
  '{' :: [singleQuoteChar] ++ ("lang").data ++ [singleQuoteChar, ':', ' '] ++
    (match e.lang with
     | some s => s
     | none => ("NULL").data) ++
    [',', ' ', singleQuoteChar] ++ ("text").data ++ [singleQuoteChar, ':', ' '] ++
    (match e.text with
     | some s => s
     | none => ("NULL").data) ++ ['}']

/-- Comma join. -/
def joinComma : List (List Char) → List Char
  | [] => []
  | [x] => x
  | x :: y :: rest => x ++ ',' :: ' ' :: joinComma (y :: rest)

/-- Surrogate for DuckDB's CAST of the product_name list to VARCHAR. -/
def castProductName (elems : List LangText) : List Char :=
  '[' :: joinComma (elems.map castLangText) ++ [']']

/-- The preferred-text extraction of the queries:
COALESCE((SELECT list_extract(list_filter(product_name, x -> x.lang =
'en'), 1).text), CAST(product_name AS VARCHAR)); NULL product_name stays
NULL; a missing or NULL English text falls back to the cast. -/
def extractNameText (pn : Option (List LangText)) : Option (List Char) :=
  match pn with
  | none => none
  | some elems =>
    match (elems.filter (fun e => decide (e.lang = some (("en").data)))).head? with
    | some e =>
      match e.text with
      | some t => some t
      | none => some (castProductName elems)
    | none => some (castProductName elems)

/-- Substring containment. -/
def containsSubstring (needle : List Char) : List Char → Bool
  | [] => needle.isEmpty
  | c :: rest => needle.isPrefixOf (c :: rest) || containsSubstring needle rest

/-- ILIKE '%needle%': case-insensitive substring containment. -/
def containsCI (hay needle : List Char) : Bool :=
  containsSubstring (needle.map Char.toLower) (hay.map Char.toLower)

/-- The column tuple selected by every search query. -/
structure ExtractedRow where
  code : Option (List Char)
  productNameText : Option (List Char)
  brandsText : Option (List Char)
  nutrimentsJson : Option (List Char)
  link : Option (List Char)
  ingredientsJson : Option (List Char)
  servingQuantity : Option (List Char)
  productQuantityUnit : Option (List Char)
  servingSize : Option (List Char)
deriving DecidableEq

/-- Projection of a row onto the selected tuple. -/
def extractRow (r : Row) : ExtractedRow :=
  { code := r.code
    productNameText := extractNameText r.productName
    brandsText := r.brands
    nutrimentsJson := r.nutriments
    link := r.link
    ingredientsJson := r.ingredients
    servingQuantity := r.servingQuantity
    productQuantityUnit := r.productQuantityUnit
    servingSize := r.servingSize }

/-- ORDER BY length(product_name_text). -/
def byNameLen (a b : ExtractedRow) : Bool :=
  decide ((a.productNameText.getD []).length ≤ (b.productNameText.getD []).length)

/-- ORDER BY code (ascending, NULLS LAST). -/
def byCode (a b : ExtractedRow) : Bool :=
  match a.code, b.code with
  | none, none => true
  | none, some _ => false
  | some _, none => true
  | some x, some y => charListLe x y

/-- WHERE brands IS NOT NULL AND CAST(brands AS VARCHAR) ILIKE %brand%. -/
def brandFilter (brand : List Char) (r : Row) : Bool :=
  r.brands.isSome && containsCI (r.brands.getD []) brand

/-- The rows produced by the SQL of SearchProductsByBrandAndName: four
mutually exclusive plan shapes chosen by non-emptiness of name and brand,
each ending in LIMIT. -/
def searchQueryRows (table : List Row) (name brand : List Char) (limit : Nat) :
    List ExtractedRow :=
  if name ≠ [] ∧ brand ≠ [] then
    let extracted := (table.filter (brandFilter brand)).map extractRow
    let filtered := extracted.filter
      (fun e => e.productNameText.isSome && containsCI (e.productNameText.getD []) name)
    (sortLeBy byNameLen filtered).take limit
  else if brand ≠ [] then
    (sortLeBy byCode ((table.filter (brandFilter brand)).map extractRow)).take limit
  else if name ≠ [] then
    let extracted := (table.filter (fun r => r.productName.isSome)).map extractRow
    let filtered := extracted.filter
      (fun e => e.productNameText.isSome && containsCI (e.productNameText.getD []) name)
    (sortLeBy byNameLen filtered).take limit
  else
    (sortLeBy byCode ((table.filter (fun r => r.productName.isSome)).map extractRow)).take limit

/-- The scan loop body: nullable columns become empty strings,
serving_quantity and ingredients are parsed as JSON with the raw string
kept on failure, nutriments go through parseNutrimentsJSON. -/
def scanRow (e : ExtractedRow) : Product :=
  { code := e.code.getD []
    productName := e.productNameText.getD []
    brands := e.brandsText.getD []
    link := e.link.getD []
    servingQuantityUnit := e.productQuantityUnit.getD []
    servingSize := e.servingSize.getD []
    servingQuantity :=
      match e.servingQuantity with
      | some s =>
        if s ≠ [] then
          match unmarshalJson s with
          | some v => some (goNormalize v)
          | none => some (Json.str s)
        else none
      | none => none
    nutriments := some (parseNutrimentsJSON e.nutrimentsJson)
    ingredients :=
      match e.ingredientsJson with
      | some s =>
        if s ≠ [] then
          match unmarshalJson s with
          | some v => some (goNormalize v)
          | none => some (Json.str s)
        else none
      | none => none }

/-- SearchProductsByBrandAndName: execute the selected plan and
materialize each returned row. -/
def searchProductsByBrandAndName (table : List Row) (name brand : List Char)
    (limit : Nat) : List Product :=
  (searchQueryRows table name brand limit).map scanRow

/-! Health-check cache (internal/mcpgo/server.go, checkHealthWithCache):
a 10-second TTL cache guarded by a read/write lock with a double-checked
write section. Because the write lock serializes the write sections,
concurrent executions are modelled as the sequential composition of
atomic sections; now is the time at which a section runs and probe the
result the engine probe would produce then. -/

/-- The cached health state: time of the last engine probe and its
result (none: healthy). -/
structure HealthState where
  lastHealthCheck : Int
  lastHealthErr : Option (List Char)
deriving DecidableEq

/-- The cache TTL in seconds. -/
def cacheDuration : Int := 10

/-- The write-locked section of checkHealthWithCache: the double check
returns the cached result when another section refreshed it meanwhile;
otherwise the engine probe runs and its result is stored. Returns
(returned status, new state, whether the probe ran). -/
def healthWriteSection (now : Int) (probe : Option (List Char)) (s : HealthState) :
    Option (List Char) × HealthState × Bool :=
  if now - s.lastHealthCheck < cacheDuration then (s.lastHealthErr, s, false)
  else (probe, { lastHealthCheck := now, lastHealthErr := probe }, true)

/-- checkHealthWithCache: the read-locked fast path returns the cached
result inside the TTL; otherwise the write section runs. -/
def checkHealthWithCache (now : Int) (probe : Option (List Char)) (s : HealthState) :
    Option (List Char) × HealthState × Bool :=
  if now - s.lastHealthCheck < cacheDuration then (s.lastHealthErr, s, false)
  else healthWriteSection now probe s

/-- A concrete oracle in which every fallible operation succeeds, the
download produces the byte [7], remote probes fail, and the hash is the
length function; used to instantiate runs at concrete inputs. -/
def allOkOracle : MgrOracle :=
  { hash := fun c => c.length
    probe := none
    acquireOk := true
    removeLockOk := true
    mkdirDataOk := true
    getwdOk := true
    mkdirTmpOk := true
    downloadOk := true
    downloadContent := [7]
    shaOk := true
    statOk := true
    probeDl := none
    saveMetaOk := true
    removeOldOk := true
    copyOk := true
    waitOutcome := none
    nowSec := 0 }


/-- Concrete legacy nutriments text of the form: array of one object with name fat (single quotes as in
the upstream dialect), used to instantiate decoder runs. -/
def c6Input : List Char :=
  '[' :: '{' :: singleQuoteChar :: ("name").data ++
    singleQuoteChar :: ':' :: ' ' :: singleQuoteChar :: ("fat").data ++
    singleQuoteChar :: '}' :: ']' :: []

/-- A parquet row whose code column is NULL but which matches a
brand-and-name search. -/
def nullCodeRow : Row :=
  { code := none
    productName := some [{ lang := some (("en").data), text := some (("N").data) }]
    brands := some (("B").data)
    nutriments := none
    link := none
    ingredients := none
    servingQuantity := none
    productQuantityUnit := none
    servingSize := none }

/-- A parquet row with a non-empty code that matches a brand-and-name
search. -/
def goodCodeRow : Row :=
  { code := some (("X").data)
    productName := some [{ lang := some (("en").data), text := some (("N").data) }]
    brands := some (("B").data)
    nutriments := none
    link := none
    ingredients := none
    servingQuantity := none
    productQuantityUnit := none
    servingSize := none }

/-! Theorems. -/

theorem lookupKey_insertKey_self (k : List Char) (v : Json) (m : List (List Char × Json)) :
    lookupKey k (insertKey k v m) = some v := by
  induction m with
  | nil => simp [insertKey, lookupKey]
  | cons hd tl ih =>
    obtain ⟨k', v'⟩ := hd
    by_cases h : k' = k <;> simp [insertKey, lookupKey, h, ih]
theorem lookupKey_insertKey_ne (k k₀ : List Char) (v : Json) (m : List (List Char × Json))
    (h : k₀ ≠ k) : lookupKey k₀ (insertKey k v m) = lookupKey k₀ m := by
  have hkk : ¬ k = k₀ := fun hh => h hh.symm
  induction m with
  | nil => simp [insertKey, lookupKey, hkk]
  | cons hd tl ih =>
    obtain ⟨k', v'⟩ := hd
    by_cases hk : k' = k
    · subst hk
      simp [insertKey, lookupKey, hkk]
    · simp [insertKey, lookupKey, hk, ih]
theorem lookupKey_eraseKey_self (k : List Char) (m : List (List Char × Json)) :
    lookupKey k (eraseKey k m) = none := by
  induction m with
  | nil => simp [eraseKey, lookupKey]
  | cons hd tl ih =>
    obtain ⟨k', v'⟩ := hd
    by_cases h : k' = k <;> simp [eraseKey, lookupKey, h, ih]
theorem lookupKey_eraseKey_ne (k k₀ : List Char) (m : List (List Char × Json))
    (h : k₀ ≠ k) : lookupKey k₀ (eraseKey k m) = lookupKey k₀ m := by
  have hkk : ¬ k = k₀ := fun hh => h hh.symm
  induction m with
  | nil => simp [eraseKey, lookupKey]
  | cons hd tl ih =>
    obtain ⟨k', v'⟩ := hd
    by_cases hk : k' = k
    · subst hk
      simp [eraseKey, lookupKey, hkk, ih]
    · simp [eraseKey, lookupKey, hk, ih]
theorem isAuthorized_eq_true_iff (tok header : List Char) :
    isAuthorized tok header = true ↔ header = bearerTag ++ tok ∧ tok ≠ [] := by
  unfold isAuthorized
  constructor
  · intro h
    by_cases h0 : header = []
    · simp [h0] at h
    · rw [if_neg h0] at h
      by_cases h1 : header.take bearerTag.length = bearerTag
      · simp only [h1, not_true_eq_false, if_false] at h
        by_cases h2 : header.drop bearerTag.length = []
        · simp [h2] at h
        · rw [if_neg h2, decide_eq_true_iff] at h
          refine ⟨?_, h ▸ h2⟩
          have hsplit : header = header.take bearerTag.length ++ header.drop bearerTag.length :=
            (List.take_append_drop bearerTag.length header).symm
          rw [hsplit, h1, h]
      · simp [h1] at h
  · rintro ⟨hh, ht⟩
    subst hh
    have hlen : bearerTag.length ≤ (bearerTag ++ tok).length := by
      simp [List.length_append]
    have htake : (bearerTag ++ tok).take bearerTag.length = bearerTag := by
      simp [List.take_append]
    have hdrop : (bearerTag ++ tok).drop bearerTag.length = tok := by
      simp [List.drop_append]
    have hne : bearerTag ++ tok ≠ [] := by
      simp [bearerTag]
    simp [hne, htake, hdrop, ht]
/-- C8: a request to /mcp is forwarded (authorized) iff its Authorization
header is exactly "Bearer " followed by a non-empty token equal to the
configured token; otherwise (absent header, non-Bearer scheme, empty
token, wrong token) the gate responds 401 with WWW-Authenticate: Bearer. -/
theorem mcp_auth_gate_correct (tok header : List Char) :
    ((mcpGate tok header).forwarded = true ↔ header = bearerTag ++ tok ∧ tok ≠ []) ∧
    (¬ (header = bearerTag ++ tok ∧ tok ≠ []) →
      (mcpGate tok header).status = some 401 ∧
      (mcpGate tok header).wwwAuth = some (("Bearer").data)) := by
  constructor
  · rw [← isAuthorized_eq_true_iff tok header]
    unfold mcpGate
    by_cases h : isAuthorized tok header <;> simp [h]
  · intro hno
    have h : isAuthorized tok header = false :=
      Bool.eq_false_iff.mpr
        (fun htrue => hno ((isAuthorized_eq_true_iff tok header).mp htrue))
    simp [mcpGate, h]
/-- Witness for C8: the header consisting of exactly "Bearer " with an
empty token is rejected with 401 and WWW-Authenticate: Bearer, and a
correct "Bearer secret" header is forwarded. -/
theorem mcp_auth_gate_correct_witness :
    (mcpGate ("secret").data (("Bearer ").data)).status = some 401 ∧
    (mcpGate ("secret").data (("Bearer ").data)).wwwAuth = some (("Bearer").data) ∧
    (mcpGate ("secret").data (("Bearer secret").data)).forwarded = true := by
  refine ⟨?_, ?_, ?_⟩
  · exact ((mcp_auth_gate_correct ("secret").data (("Bearer ").data)).2 (by decide)).1
  · exact ((mcp_auth_gate_correct ("secret").data (("Bearer ").data)).2 (by decide)).2
  · exact ((mcp_auth_gate_correct ("secret").data (("Bearer secret").data)).1).mpr (by decide)
/-- C9: in the brand-and-name search tool handlers a supplied limit of at
most 0 is replaced by the default 3 and a supplied limit greater than 10
is replaced by 10, before the query is executed. -/
theorem handler_limit_clamped (name brand : List Char) (q : Rat)
    (hn : name ≠ []) (hb : brand ≠ []) :
    (q ≤ 0 → handleSearchArgs name brand (some q) = some ⟨name, brand, 3⟩) ∧
    (10 < q → handleSearchArgs name brand (some q) = some ⟨name, brand, 10⟩) := by
  have hn' : ¬ name.length < 1 := by
    simpa [Nat.lt_one_iff, List.length_eq_zero] using hn
  have hb' : ¬ brand.length < 1 := by
    simpa [Nat.lt_one_iff, List.length_eq_zero] using hb
  constructor
  · intro hq
    have htr : goTruncToInt q ≤ 0 := by
      unfold goTruncToInt
      by_cases h0 : 0 ≤ q
      · have hq0 : q = 0 := le_antisymm hq h0
        simp [hq0]
      · rw [if_neg h0]
        exact Int.ceil_le.mpr (by exact_mod_cast hq)
    simp [handleSearchArgs, hn', hb', handlerLimit, htr]
  · intro hq
    have h0 : 0 ≤ q := le_of_lt (lt_trans (by norm_num) hq)
    have hfl : (10 : Int) ≤ ⌊q⌋ := by
      rw [Int.le_floor]
      exact_mod_cast le_of_lt hq
    have htr : goTruncToInt q = ⌊q⌋ := by simp [goTruncToInt, h0]
    have hpos : ¬ (⌊q⌋ : Int) ≤ 0 := by omega
    by_cases hgt : (10 : Int) < ⌊q⌋
    · simp [handleSearchArgs, hn', hb', handlerLimit, htr, hpos, hgt]
    · have hfq : ⌊q⌋ = 10 := le_antisymm (by omega) hfl
      simp [handleSearchArgs, hn', hb', handlerLimit, htr, hpos, hfq]
/-- Witness for C9: limit 0 becomes 3 and limit 11 becomes 10 at concrete
arguments. -/
theorem handler_limit_clamped_witness :
    handleSearchArgs ("a").data ("b").data (some 0) = some ⟨("a").data, ("b").data, 3⟩ ∧
    handleSearchArgs ("a").data ("b").data (some 11) = some ⟨("a").data, ("b").data, 10⟩ := by
  constructor
  · exact (handler_limit_clamped ("a").data ("b").data 0 (by decide) (by decide)).1 le_rfl
  · exact (handler_limit_clamped ("a").data ("b").data 11 (by decide) (by decide)).2 (by norm_num)
theorem updateDiv_lookup_same (k : List Char) (src dst : List (List Char × Json)) :
    lookupKey k (updateDiv k src dst) =
      match lookupKey k src with
      | some (Json.num v) => some (Json.num (v / kjPerKcal))
      | _ => lookupKey k dst := by
  unfold updateDiv
  rcases h : lookupKey k src with _ | v
  · simp
  · cases v <;> simp [lookupKey_insertKey_self]
theorem updateDiv_lookup_ne (k k₀ : List Char) (src dst : List (List Char × Json))
    (h : k₀ ≠ k) : lookupKey k₀ (updateDiv k src dst) = lookupKey k₀ dst := by
  unfold updateDiv
  rcases hs : lookupKey k src with _ | v
  · simp
  · cases v <;> simp [lookupKey_insertKey_ne _ _ _ _ h]
theorem convertEnergyObj_lookup_g100 (kj : List (List Char × Json)) :
    lookupKey g100Key (convertEnergyObj kj) = divIfNum (lookupKey g100Key kj) := by
  unfold convertEnergyObj divIfNum
  rw [lookupKey_insertKey_ne _ _ _ _ (by decide), lookupKey_insertKey_ne _ _ _ _ (by decide),
    updateDiv_lookup_ne _ _ _ _ (by decide), updateDiv_lookup_ne _ _ _ _ (by decide),
    updateDiv_lookup_same]
  rcases h : lookupKey g100Key kj with _ | v
  · simp
  · cases v <;> simp
theorem convertEnergyObj_lookup_serving (kj : List (List Char × Json)) :
    lookupKey servingKey (convertEnergyObj kj) = divIfNum (lookupKey servingKey kj) := by
  unfold convertEnergyObj divIfNum
  rw [lookupKey_insertKey_ne _ _ _ _ (by decide), lookupKey_insertKey_ne _ _ _ _ (by decide),
    updateDiv_lookup_ne _ _ _ _ (by decide), updateDiv_lookup_same]
  rcases h : lookupKey servingKey kj with _ | v
  · rw [updateDiv_lookup_ne _ _ _ _ (by decide)]
    simp [h]
  · cases v <;> rw [updateDiv_lookup_ne _ _ _ _ (by decide)] <;> simp [h]
theorem convertEnergyObj_lookup_value (kj : List (List Char × Json)) :
    lookupKey valueKey (convertEnergyObj kj) = divIfNum (lookupKey valueKey kj) := by
  unfold convertEnergyObj divIfNum
  rw [lookupKey_insertKey_ne _ _ _ _ (by decide), lookupKey_insertKey_ne _ _ _ _ (by decide),
    updateDiv_lookup_same]
  rcases h : lookupKey valueKey kj with _ | v
  · rw [updateDiv_lookup_ne _ _ _ _ (by decide), updateDiv_lookup_ne _ _ _ _ (by decide)]
    simp [h]
  · cases v <;>
      rw [updateDiv_lookup_ne _ _ _ _ (by decide), updateDiv_lookup_ne _ _ _ _ (by decide)] <;>
      simp [h]
theorem convertEnergyObj_lookup_name (kj : List (List Char × Json)) :
    lookupKey nameKey (convertEnergyObj kj) = some (Json.str kcalKey) := by
  unfold convertEnergyObj
  rw [lookupKey_insertKey_ne _ _ _ _ (by decide), lookupKey_insertKey_self]
theorem convertEnergyObj_lookup_unit (kj : List (List Char × Json)) :
    lookupKey unitKey (convertEnergyObj kj) = some (Json.str (("kcal").data)) := by
  unfold convertEnergyObj
  rw [lookupKey_insertKey_self]
theorem convertEnergyObj_lookup_other (kj : List (List Char × Json)) (k : List Char)
    (h1 : k ≠ g100Key) (h2 : k ≠ servingKey) (h3 : k ≠ valueKey)
    (h4 : k ≠ nameKey) (h5 : k ≠ unitKey) :
    lookupKey k (convertEnergyObj kj) = lookupKey k kj := by
  unfold convertEnergyObj
  rw [lookupKey_insertKey_ne _ _ _ _ h5, lookupKey_insertKey_ne _ _ _ _ h4,
    updateDiv_lookup_ne _ _ _ _ h3, updateDiv_lookup_ne _ _ _ _ h2,
    updateDiv_lookup_ne _ _ _ _ h1]
/-- C3 (amended): nutriments behaviour of the simplified projection. If
both energy-kcal and energy are present, energy is dropped and everything
else is unchanged; if only energy is present and its value is an object,
it is converted to energy-kcal (numeric 100g / serving / value divided by
4.184, name and unit rewritten, other fields copied) and energy is
dropped; if only energy is present and its value is not an object, energy
is dropped and no energy-kcal is produced; all other keys pass through
unchanged; with neither key the map is unchanged. -/
theorem toSimplified_nutriments_spec (p : Product) (m : List (List Char × Json))
    (hm : p.nutriments = some m) :
    ((lookupKey kcalKey m).isSome →
      ∃ out, (toSimplified p).nutriments = some out ∧
        lookupKey energyKey out = none ∧
        ∀ k, k ≠ energyKey → lookupKey k out = lookupKey k m) ∧
    (lookupKey kcalKey m = none →
      ∀ kj, lookupKey energyKey m = some (Json.obj kj) →
      ∃ out ck, (toSimplified p).nutriments = some out ∧
        lookupKey energyKey out = none ∧
        lookupKey kcalKey out = some (Json.obj ck) ∧
        (∀ k, k ≠ energyKey → k ≠ kcalKey → lookupKey k out = lookupKey k m) ∧
        lookupKey g100Key ck = divIfNum (lookupKey g100Key kj) ∧
        lookupKey servingKey ck = divIfNum (lookupKey servingKey kj) ∧
        lookupKey valueKey ck = divIfNum (lookupKey valueKey kj) ∧
        lookupKey nameKey ck = some (Json.str kcalKey) ∧
        lookupKey unitKey ck = some (Json.str (("kcal").data)) ∧
        (∀ k, k ≠ g100Key → k ≠ servingKey → k ≠ valueKey → k ≠ nameKey → k ≠ unitKey →
          lookupKey k ck = lookupKey k kj)) ∧
    (lookupKey kcalKey m = none →
      ∀ v, lookupKey energyKey m = some v → (∀ kj, v ≠ Json.obj kj) →
      ∃ out, (toSimplified p).nutriments = some out ∧
        lookupKey energyKey out = none ∧ lookupKey kcalKey out = none ∧
        ∀ k, k ≠ energyKey → lookupKey k out = lookupKey k m) ∧
    (lookupKey kcalKey m = none → lookupKey energyKey m = none →
      (toSimplified p).nutriments = some m) := by
  have hnut : (toSimplified p).nutriments = processNutrimentsForSimplified (some m) := by
    simp only [toSimplified]
    rw [hm]
  have hek : kcalKey ≠ energyKey := by decide
  refine ⟨?_, ?_, ?_, ?_⟩
  · intro hk
    refine ⟨eraseKey energyKey m, ?_, lookupKey_eraseKey_self _ _, ?_⟩
    · rw [hnut]
      simp only [processNutrimentsForSimplified, hk, if_true]
    · intro k hkne
      exact lookupKey_eraseKey_ne _ _ _ hkne
  · intro hk kj he
    refine ⟨eraseKey energyKey (insertKey kcalKey (Json.obj (convertEnergyObj kj)) m),
      convertEnergyObj kj, ?_, lookupKey_eraseKey_self _ _, ?_, ?_,
      convertEnergyObj_lookup_g100 kj, convertEnergyObj_lookup_serving kj,
      convertEnergyObj_lookup_value kj, convertEnergyObj_lookup_name kj,
      convertEnergyObj_lookup_unit kj, convertEnergyObj_lookup_other kj⟩
    · rw [hnut]
      simp only [processNutrimentsForSimplified, hk, Option.isSome_none, Bool.false_eq_true,
        if_false, he]
    · rw [lookupKey_eraseKey_ne _ _ _ hek, lookupKey_insertKey_self]
    · intro k hke hkk
      rw [lookupKey_eraseKey_ne _ _ _ hke, lookupKey_insertKey_ne _ _ _ _ hkk]
  · intro hk v he hv
    have hbody : processNutrimentsForSimplified (some m) = some (eraseKey energyKey m) := by
      cases v with
      | obj kj => exact absurd rfl (hv kj)
      | null =>
        simp only [processNutrimentsForSimplified, hk, Option.isSome_none, Bool.false_eq_true,
          if_false, he]
      | bool b =>
        simp only [processNutrimentsForSimplified, hk, Option.isSome_none, Bool.false_eq_true,
          if_false, he]
      | num q =>
        simp only [processNutrimentsForSimplified, hk, Option.isSome_none, Bool.false_eq_true,
          if_false, he]
      | str s =>
        simp only [processNutrimentsForSimplified, hk, Option.isSome_none, Bool.false_eq_true,
          if_false, he]
      | arr xs =>
        simp only [processNutrimentsForSimplified, hk, Option.isSome_none, Bool.false_eq_true,
          if_false, he]
    refine ⟨eraseKey energyKey m, by rw [hnut, hbody], lookupKey_eraseKey_self _ _, ?_, ?_⟩
    · rw [lookupKey_eraseKey_ne _ _ _ hek, hk]
    · intro k hkne
      exact lookupKey_eraseKey_ne _ _ _ hkne
  · intro hk he
    rw [hnut]
    simp only [processNutrimentsForSimplified, hk, Option.isSome_none, Bool.false_eq_true,
      if_false, he]
/-- Counterexample to C3 as stated: when the only energy entry holds a
bare number instead of an object, the simplified nutriments do NOT
contain an energy-kcal key (the claim asserts they do); energy is dropped
and the result is the empty map. -/
theorem toSimplified_energy_nonobject_counterexample :
    lookupKey kcalKey [(energyKey, Json.num 5)] = none ∧
    lookupKey energyKey [(energyKey, Json.num 5)] = some (Json.num 5) ∧
    (toSimplified ⟨[], [], [], some [(energyKey, Json.num 5)], [], none, none, [], []⟩).nutriments
      = some [] := by
  refine ⟨by decide, by decide, ?_⟩
  rfl
theorem downloadBody_spec (o : MgrOracle) (fs : FsState) :
    ((downloadBody o fs).1 = none →
      (downloadBody o fs).2.snapshot = some o.downloadContent ∧
      (downloadBody o fs).2.tmp = none ∧
      (o.saveMetaOk = true →
        ∃ md, (downloadBody o fs).2.metadata = some md ∧
          md.sha256 = o.hash o.downloadContent)) ∧
    (((downloadBody o fs).1 = some MgrErr.downloadFailed ∨
      (downloadBody o fs).1 = some MgrErr.shaFailed ∨
      (downloadBody o fs).1 = some MgrErr.statFailed ∨
      (downloadBody o fs).1 = some MgrErr.removeOldFailed) →
      (downloadBody o fs).2.tmp = none ∧
      (downloadBody o fs).2.snapshot = fs.snapshot) ∧
    ((downloadBody o fs).1 = some MgrErr.copyFailed →
      (downloadBody o fs).2.tmp = none) := by
  unfold downloadBody
  by_cases h1 : o.mkdirDataOk
  case neg => simp [h1]
  by_cases h2 : o.getwdOk
  case neg => simp [h1, h2]
  by_cases h3 : o.mkdirTmpOk
  case neg => simp [h1, h2, h3]
  by_cases h4 : o.downloadOk
  case neg => simp [h1, h2, h3, h4]
  by_cases h5 : o.shaOk
  case neg => simp [h1, h2, h3, h4, h5]
  by_cases h6 : o.statOk
  case neg => simp [h1, h2, h3, h4, h5, h6]
  by_cases h7 : o.saveMetaOk
  all_goals cases hsnap : fs.snapshot
  all_goals by_cases h8 : o.removeOldOk
  all_goals by_cases h9 : o.copyOk
  all_goals simp [h1, h2, h3, h4, h5, h6, h7, h8, h9, hsnap]

theorem dlLockRemoved_snapshot (cfg : MgrConfig) (o : MgrOracle) (fs0 : FsState) :
    (dlLockRemoved cfg o fs0).snapshot = fs0.snapshot := by
  unfold dlLockRemoved
  split <;> rfl

theorem dlLockRemoved_metadata (cfg : MgrConfig) (o : MgrOracle) (fs0 : FsState) :
    (dlLockRemoved cfg o fs0).metadata = fs0.metadata := by
  unfold dlLockRemoved
  split <;> rfl

/-- C1 (amended): during a download attempt, any failure after the temp
file is created and before the removal of the pre-existing snapshot
begins — download, hash, stat, or removal failure — deletes the temp
file and leaves the snapshot untouched; a failure of the copy that
performs the promotion still deletes the temp file, but the
remove-then-copy promotion is not atomic and the pre-existing snapshot
is no longer present at the snapshot path at that point. -/
theorem download_failure_cleanup (cfg : MgrConfig) (o : MgrOracle) (fs0 : FsState) :
    (((downloadWithLock cfg o fs0).err = some MgrErr.downloadFailed ∨
      (downloadWithLock cfg o fs0).err = some MgrErr.shaFailed ∨
      (downloadWithLock cfg o fs0).err = some MgrErr.statFailed ∨
      (downloadWithLock cfg o fs0).err = some MgrErr.removeOldFailed) →
      (downloadWithLock cfg o fs0).fs.tmp = none ∧
      (downloadWithLock cfg o fs0).fs.snapshot = fs0.snapshot) ∧
    ((downloadWithLock cfg o fs0).err = some MgrErr.copyFailed →
      (downloadWithLock cfg o fs0).fs.tmp = none) := by
  unfold downloadWithLock
  by_cases hacq : dlAcquired cfg o fs0
  · simp only [hacq, if_true]
    constructor
    · intro herr
      have hspec := (downloadBody_spec o
        { dlLockRemoved cfg o fs0 with lockFileExists := true }).2.1 (by simpa using herr)
      refine ⟨by simpa using hspec.1, ?_⟩
      have := hspec.2
      simpa [dlLockRemoved_snapshot] using this
    · intro herr
      have hspec := (downloadBody_spec o
        { dlLockRemoved cfg o fs0 with lockFileExists := true }).2.2 (by simpa using herr)
      simpa using hspec
  · by_cases hil : cfg.ignoreLock
    · simp only [hacq, hil, if_false, if_true, Bool.false_eq_true]
      constructor
      · intro herr
        have hspec := (downloadBody_spec o (dlLockRemoved cfg o fs0)).2.1 (by simpa using herr)
        refine ⟨by simpa using hspec.1, ?_⟩
        have := hspec.2
        simpa [dlLockRemoved_snapshot] using this
      · intro herr
        have hspec := (downloadBody_spec o (dlLockRemoved cfg o fs0)).2.2 (by simpa using herr)
        simpa using hspec
    · simp only [hacq, hil, if_false, Bool.false_eq_true]
      unfold waitForDownload
      cases hw : o.waitOutcome with
      | none => simp
      | some fsW =>
        by_cases hws : fsW.snapshot.isSome <;> simp [hws]

/-- Counterexample to C1 as stated: with a pre-existing snapshot [1, 2]
and a run in which only the final copy of the promotion fails, the temp
file is deleted but nothing remains at the snapshot path: the previous
snapshot is not left unchanged. -/
theorem download_copy_failure_loses_snapshot :
    (downloadWithLock ⟨false, false⟩ { allOkOracle with copyOk := false }
      ⟨some [1, 2], none, none, false⟩).err = some MgrErr.copyFailed ∧
    (downloadWithLock ⟨false, false⟩ { allOkOracle with copyOk := false }
      ⟨some [1, 2], none, none, false⟩).fs.tmp = none ∧
    (downloadWithLock ⟨false, false⟩ { allOkOracle with copyOk := false }
      ⟨some [1, 2], none, none, false⟩).fs.snapshot = none := by
  decide

/-- Witness for C1: a run in which the hash step fails deletes the temp
file and leaves the pre-existing snapshot unchanged. -/
theorem download_failure_cleanup_witness :
    (downloadWithLock ⟨false, false⟩ { allOkOracle with shaOk := false }
      ⟨some [1, 2], none, none, false⟩).fs.tmp = none ∧
    (downloadWithLock ⟨false, false⟩ { allOkOracle with shaOk := false }
      ⟨some [1, 2], none, none, false⟩).fs.snapshot =
      (⟨some [1, 2], none, none, false⟩ : FsState).snapshot := by
  exact (download_failure_cleanup ⟨false, false⟩ { allOkOracle with shaOk := false }
    ⟨some [1, 2], none, none, false⟩).1 (by decide)

theorem downloadWithLock_success_hash (cfg : MgrConfig) (o : MgrOracle) (fs0 : FsState)
    (hsave : o.saveMetaOk = true)
    (hwait : ∀ fsW, o.waitOutcome = some fsW → MetaInv o fsW) :
    (downloadWithLock cfg o fs0).err = none →
    ∃ c md, (downloadWithLock cfg o fs0).fs.snapshot = some c ∧
      (downloadWithLock cfg o fs0).fs.metadata = some md ∧ md.sha256 = o.hash c := by
  unfold downloadWithLock
  by_cases hacq : dlAcquired cfg o fs0
  · simp only [hacq, if_true]
    intro herr
    obtain ⟨hsnap, _, hmdf⟩ := (downloadBody_spec o
      { dlLockRemoved cfg o fs0 with lockFileExists := true }).1 (by simpa using herr)
    obtain ⟨md, hmd, hsha⟩ := hmdf hsave
    exact ⟨o.downloadContent, md, by simpa using hsnap, by simpa using hmd, hsha⟩
  · by_cases hil : cfg.ignoreLock
    · simp only [hacq, hil, if_false, if_true, Bool.false_eq_true]
      intro herr
      obtain ⟨hsnap, _, hmdf⟩ := (downloadBody_spec o (dlLockRemoved cfg o fs0)).1
        (by simpa using herr)
      obtain ⟨md, hmd, hsha⟩ := hmdf hsave
      exact ⟨o.downloadContent, md, by simpa using hsnap, by simpa using hmd, hsha⟩
    · simp only [hacq, hil, if_false, Bool.false_eq_true]
      unfold waitForDownload
      cases hw : o.waitOutcome with
      | none => simp
      | some fsW =>
        by_cases hws : fsW.snapshot.isSome
        · simp only [hws, if_true]
          intro _
          obtain ⟨c, hc⟩ := Option.isSome_iff_exists.mp hws
          obtain ⟨md, hmd, hsha⟩ := hwait fsW hw c hc
          exact ⟨c, md, hc, hmd, hsha⟩
        · simp [hws]

/-- C2 (amended): every successful EnsureDataset call — provided the
sidecar metadata write succeeds when a download runs (its failure is
only logged as a warning), the pre-existing metadata describes the
snapshot when the download is skipped, and any state observed from
another instance through the wait loop is equally coherent — ends with
the snapshot present and the metadata sha256 equal to the hash of the
snapshot bytes. -/
theorem ensureDataset_success_hash (cfg : MgrConfig) (o : MgrOracle) (fs0 : FsState)
    (hpre : MetaInv o fs0) (hsave : o.saveMetaOk = true)
    (hwait : ∀ fsW, o.waitOutcome = some fsW → MetaInv o fsW) :
    (ensureDataset cfg o fs0).err = none →
    ∃ c md, (ensureDataset cfg o fs0).fs.snapshot = some c ∧
      (ensureDataset cfg o fs0).fs.metadata = some md ∧ md.sha256 = o.hash c := by
  unfold ensureDataset
  by_cases hs : fs0.snapshot.isSome
  · by_cases hd : cfg.disableRemoteCheck
    · simp only [hs, hd, if_true]
      intro _
      obtain ⟨c, hc⟩ := Option.isSome_iff_exists.mp hs
      obtain ⟨md, hmd, hsha⟩ := hpre c hc
      exact ⟨c, md, hc, hmd, hsha⟩
    · by_cases hu : (isUpToDate o fs0).1
      · simp only [hs, hd, hu, if_true, if_false, Bool.false_eq_true]
        intro _
        obtain ⟨c, hc⟩ := Option.isSome_iff_exists.mp hs
        obtain ⟨md, hmd, hsha⟩ := hpre c hc
        exact ⟨c, md, hc, hmd, hsha⟩
      · simp only [hs, hd, hu, if_true, if_false, Bool.false_eq_true]
        intro herr
        obtain ⟨c, md, hc, hmd, hsha⟩ :=
          downloadWithLock_success_hash cfg o fs0 hsave hwait (by simpa using herr)
        exact ⟨c, md, by simpa using hc, by simpa using hmd, hsha⟩
  · simp only [hs, if_false, Bool.false_eq_true]
    intro herr
    obtain ⟨c, md, hc, hmd, hsha⟩ :=
      downloadWithLock_success_hash cfg o fs0 hsave hwait (by simpa using herr)
    exact ⟨c, md, by simpa using hc, by simpa using hmd, hsha⟩

/-- Counterexample to C2 as stated: from an empty data directory, a run
in which only the sidecar metadata write fails (the code merely logs a
warning) returns success with a snapshot in place but no metadata
document, so sha256(snapshot) = metadata.sha256 fails. -/
theorem ensure_success_without_metadata :
    (ensureDataset ⟨false, false⟩ { allOkOracle with saveMetaOk := false }
      ⟨none, none, none, false⟩).err = none ∧
    (ensureDataset ⟨false, false⟩ { allOkOracle with saveMetaOk := false }
      ⟨none, none, none, false⟩).fs.snapshot = some [7] ∧
    (ensureDataset ⟨false, false⟩ { allOkOracle with saveMetaOk := false }
      ⟨none, none, none, false⟩).fs.metadata = none := by
  decide

/-- Witness for C2: an all-successful download from an empty data
directory establishes the snapshot-metadata coherence. -/
theorem ensureDataset_success_hash_witness :
    ∃ c md,
      (ensureDataset ⟨false, false⟩ allOkOracle ⟨none, none, none, false⟩).fs.snapshot =
        some c ∧
      (ensureDataset ⟨false, false⟩ allOkOracle ⟨none, none, none, false⟩).fs.metadata =
        some md ∧
      md.sha256 = allOkOracle.hash c := by
  exact ensureDataset_success_hash ⟨false, false⟩ allOkOracle ⟨none, none, none, false⟩
    (fun c hc => nomatch hc) rfl (fun fsW hw => nomatch hw) (by decide)

/-- C4 (amended): when a local snapshot exists, remote checks are
enabled, local metadata is present and the freshness probe fails, the
failure is recorded as a warning and the call still proceeds to
download (the claim asserted it would not). -/
theorem probe_failure_proceeds_to_download (cfg : MgrConfig) (o : MgrOracle) (fs0 : FsState)
    (hs : fs0.snapshot.isSome = true) (hd : cfg.disableRemoteCheck = false)
    (hm : fs0.metadata.isSome = true) (hp : o.probe = none) :
    (ensureDataset cfg o fs0).enteredDownload = true ∧
    (ensureDataset cfg o fs0).probeWarned = true := by
  obtain ⟨md, hmd⟩ := Option.isSome_iff_exists.mp hm
  have hu : isUpToDate o fs0 = (false, true) := by
    unfold isUpToDate
    rw [hmd, hp]
  unfold ensureDataset
  simp [hs, hd, hu]

/-- Counterexample to C4 as stated: with a snapshot and metadata on disk,
remote checks enabled and a failing probe, EnsureDataset enters the
download path (the claim asserts the call does not proceed to download
when the snapshot exists). -/
theorem probe_failure_downloads_counterexample :
    allOkOracle.probe = none ∧
    (ensureDataset ⟨false, false⟩ allOkOracle
      ⟨some [1], some ⟨0, 0, [], 1⟩, none, false⟩).enteredDownload = true ∧
    (ensureDataset ⟨false, false⟩ allOkOracle
      ⟨some [1], some ⟨0, 0, [], 1⟩, none, false⟩).err = none ∧
    (ensureDataset ⟨false, false⟩ allOkOracle
      ⟨some [1], some ⟨0, 0, [], 1⟩, none, false⟩).fs.snapshot = some [7] := by
  decide

/-- Witness for C4: the amended theorem at a concrete snapshot-present,
probe-failing input. -/
theorem probe_failure_proceeds_to_download_witness :
    (ensureDataset ⟨false, false⟩ allOkOracle
      ⟨some [1, 2, 3], some ⟨3, 0, [], 3⟩, none, false⟩).enteredDownload = true ∧
    (ensureDataset ⟨false, false⟩ allOkOracle
      ⟨some [1, 2, 3], some ⟨3, 0, [], 3⟩, none, false⟩).probeWarned = true := by
  exact probe_failure_proceeds_to_download ⟨false, false⟩ allOkOracle
    ⟨some [1, 2, 3], some ⟨3, 0, [], 3⟩, none, false⟩ rfl rfl rfl rfl

/-- C10: with IGNORE_LOCK set, when acquiring the refresh lock still
fails after the forced removal attempt, downloadWithLock proceeds to
download without holding the lock, never enters the wait-for-snapshot
loop, and on success promotes the downloaded snapshot: the at-most-one-
writer exclusion is not enforced under the override. -/
theorem ignore_lock_bypasses_exclusion (cfg : MgrConfig) (o : MgrOracle) (fs0 : FsState)
    (hil : cfg.ignoreLock = true) (hacq : dlAcquired cfg o fs0 = false) :
    (downloadWithLock cfg o fs0).waited = false ∧
    (downloadWithLock cfg o fs0).lockHeld = false ∧
    (downloadWithLock cfg o fs0).downloaded = true ∧
    ((downloadWithLock cfg o fs0).err = none →
      (downloadWithLock cfg o fs0).fs.snapshot = some o.downloadContent) := by
  unfold downloadWithLock
  simp only [hacq, hil, if_false, if_true, Bool.false_eq_true]
  refine ⟨trivial, trivial, trivial, ?_⟩
  intro herr
  exact ((downloadBody_spec o (dlLockRemoved cfg o fs0)).1 (by simpa using herr)).1

/-- Witness for C10: a run with IGNORE_LOCK in which the lock file exists
and its forced removal fails downloads and promotes without the lock and
without waiting. -/
theorem ignore_lock_bypasses_exclusion_witness :
    (downloadWithLock ⟨false, true⟩ { allOkOracle with removeLockOk := false }
      ⟨none, none, none, true⟩).waited = false ∧
    (downloadWithLock ⟨false, true⟩ { allOkOracle with removeLockOk := false }
      ⟨none, none, none, true⟩).lockHeld = false ∧
    (downloadWithLock ⟨false, true⟩ { allOkOracle with removeLockOk := false }
      ⟨none, none, none, true⟩).downloaded = true ∧
    (downloadWithLock ⟨false, true⟩ { allOkOracle with removeLockOk := false }
      ⟨none, none, none, true⟩).fs.snapshot = some [7] := by
  obtain ⟨hw, hl, hd, hp⟩ := ignore_lock_bypasses_exclusion ⟨false, true⟩
    { allOkOracle with removeLockOk := false } ⟨none, none, none, true⟩ rfl (by decide)
  exact ⟨hw, hl, hd, hp (by decide)⟩

/-- Witness for C3: the object-valued energy conversion at a concrete
product, obtained from the amended theorem. -/
theorem toSimplified_nutriments_spec_witness :
    ∃ out ck,
      (toSimplified ⟨[], [], [], some [(energyKey, Json.obj [(g100Key, Json.num 2255)])],
        [], none, none, [], []⟩).nutriments = some out ∧
      lookupKey kcalKey out = some (Json.obj ck) ∧
      lookupKey g100Key ck = divIfNum (lookupKey g100Key [(g100Key, Json.num 2255)]) := by
  obtain ⟨out, ck, h1, _, h3, _, h5, _⟩ :=
    (toSimplified_nutriments_spec
      ⟨[], [], [], some [(energyKey, Json.obj [(g100Key, Json.num 2255)])],
        [], none, none, [], []⟩
      [(energyKey, Json.obj [(g100Key, Json.num 2255)])] rfl).2.1
      (by decide) [(g100Key, Json.num 2255)] (by decide)
  exact ⟨out, ck, h1, h3, h5⟩
theorem checkHealth_returns_stored (now : Int) (probe : Option (List Char))
    (s : HealthState) :
    (checkHealthWithCache now probe s).1 =
      (checkHealthWithCache now probe s).2.1.lastHealthErr := by
  unfold checkHealthWithCache healthWriteSection
  by_cases h : now - s.lastHealthCheck < cacheDuration <;> simp [h]

/-- C7 (amended): a health_check call made while the stored cache
timestamp is less than 10 seconds old returns the status the previous
call returned, without an engine probe; and when the cache has expired,
the first caller entering the serialized write section performs the probe
and stores its result, while a second caller entering the write section
within 10 seconds returns that stored result without probing. -/
theorem health_cache_spec (t1 t2 : Int) (p1 p2 : Option (List Char)) (s : HealthState) :
    (t2 - (checkHealthWithCache t1 p1 s).2.1.lastHealthCheck < cacheDuration →
      checkHealthWithCache t2 p2 (checkHealthWithCache t1 p1 s).2.1 =
        ((checkHealthWithCache t1 p1 s).1, (checkHealthWithCache t1 p1 s).2.1, false)) ∧
    (cacheDuration ≤ t1 - s.lastHealthCheck → t2 - t1 < cacheDuration →
      healthWriteSection t1 p1 s = (p1, ⟨t1, p1⟩, true) ∧
      healthWriteSection t2 p2 ⟨t1, p1⟩ = (p1, ⟨t1, p1⟩, false)) := by
  constructor
  · intro h2
    have hret := checkHealth_returns_stored t1 p1 s
    rw [hret]
    generalize hgen : (checkHealthWithCache t1 p1 s).2.1 = s1 at h2 ⊢
    unfold checkHealthWithCache
    rw [if_pos h2]
  · intro h1 h2
    have h1' : ¬ t1 - s.lastHealthCheck < cacheDuration := not_lt.mpr h1
    constructor
    · unfold healthWriteSection
      rw [if_neg h1']
    · unfold healthWriteSection
      simp only
      rw [if_pos (by simpa using h2)]

/-- Counterexample to C7 as stated: with an engine that has become
unhealthy, two calls 2 seconds apart straddle the expiry of a cache
entry stored at time 0: the call at t = 9 returns the cached healthy
status without probing, but the call at t = 11 probes again and returns
the new unhealthy status — the claim asserts any two calls less than 10
seconds apart return the same status with no second probe. -/
theorem health_cache_straddle_counterexample :
    checkHealthWithCache 0 none ⟨-100, some (("old").data)⟩ =
      (none, ⟨0, none⟩, true) ∧
    checkHealthWithCache 9 (some (("down").data)) ⟨0, none⟩ =
      (none, ⟨0, none⟩, false) ∧
    checkHealthWithCache 11 (some (("down").data)) ⟨0, none⟩ =
      (some (("down").data), ⟨11, some (("down").data)⟩, true) := by
  decide

/-- Witness for C7: the amended theorem at concrete times 0 and 5 with a
cold cache. -/
theorem health_cache_spec_witness :
    checkHealthWithCache 5 (some (("x").data)) (checkHealthWithCache 0 none ⟨-100, none⟩).2.1 =
      ((checkHealthWithCache 0 none ⟨-100, none⟩).1,
        (checkHealthWithCache 0 none ⟨-100, none⟩).2.1, false) ∧
    healthWriteSection 0 none ⟨-100, none⟩ = (none, ⟨0, none⟩, true) ∧
    healthWriteSection 5 (some (("x").data)) ⟨0, none⟩ = (none, ⟨0, none⟩, false) := by
  refine ⟨(health_cache_spec 0 5 none (some (("x").data)) ⟨-100, none⟩).1 (by decide), ?_, ?_⟩
  · exact ((health_cache_spec 0 5 none (some (("x").data)) ⟨-100, none⟩).2
      (by decide) (by decide)).1
  · exact ((health_cache_spec 0 5 none (some (("x").data)) ⟨-100, none⟩).2
      (by decide) (by decide)).2

theorem length_insertLeBy {α : Type} (le : α → α → Bool) (x : α) (l : List α) :
    (insertLeBy le x l).length = l.length + 1 := by
  induction l with
  | nil => rfl
  | cons y ys ih =>
    unfold insertLeBy
    by_cases h : le x y <;> simp [h, ih]

theorem length_sortLeBy {α : Type} (le : α → α → Bool) (l : List α) :
    (sortLeBy le l).length = l.length := by
  induction l with
  | nil => rfl
  | cons x xs ih =>
    unfold sortLeBy
    rw [length_insertLeBy, ih, List.length_cons]

theorem mem_insertLeBy {α : Type} (le : α → α → Bool) (x y : α) (l : List α) :
    y ∈ insertLeBy le x l ↔ y = x ∨ y ∈ l := by
  induction l with
  | nil => simp [insertLeBy]
  | cons z zs ih =>
    unfold insertLeBy
    by_cases h : le x z
    · simp [h]
    · simp [h, ih]
      tauto

theorem mem_sortLeBy {α : Type} (le : α → α → Bool) (y : α) (l : List α) :
    y ∈ sortLeBy le l ↔ y ∈ l := by
  induction l with
  | nil => simp [sortLeBy]
  | cons x xs ih =>
    unfold sortLeBy
    rw [mem_insertLeBy, ih, List.mem_cons]

theorem searchQueryRows_length_le (table : List Row) (name brand : List Char)
    (limit : Nat) : (searchQueryRows table name brand limit).length ≤ limit := by
  unfold searchQueryRows
  split_ifs <;> exact List.length_take_le _ _

theorem searchQueryRows_mem (table : List Row) (name brand : List Char) (limit : Nat)
    (e : ExtractedRow) (he : e ∈ searchQueryRows table name brand limit) :
    ∃ r ∈ table, e = extractRow r := by
  unfold searchQueryRows at he
  split_ifs at he <;>
  · have h1 := List.take_subset _ _ he
    rw [mem_sortLeBy] at h1
    first
    | (have h2 := (List.mem_filter.mp h1).1
       obtain ⟨r, hr, hre⟩ := List.mem_map.mp h2
       exact ⟨r, (List.mem_filter.mp hr).1, hre.symm⟩)
    | (obtain ⟨r, hr, hre⟩ := List.mem_map.mp h1
       exact ⟨r, (List.mem_filter.mp hr).1, hre.symm⟩)

/-- C5 (amended): every brand-and-name search returns at most limit
products, and every returned product's code equals the row's code column
(the empty string when that column is NULL); in particular all returned
codes are non-empty whenever every row of the snapshot carries a
non-null, non-empty code. -/
theorem search_limit_and_codes (table : List Row) (name brand : List Char) (limit : Nat)
    (hcodes : ∀ r ∈ table, ∃ c, r.code = some c ∧ c ≠ []) :
    (searchProductsByBrandAndName table name brand limit).length ≤ limit ∧
    ∀ p ∈ searchProductsByBrandAndName table name brand limit, p.code ≠ [] := by
  constructor
  · unfold searchProductsByBrandAndName
    rw [List.length_map]
    exact searchQueryRows_length_le table name brand limit
  · intro p hp
    obtain ⟨e, he, hpe⟩ := List.mem_map.mp hp
    obtain ⟨r, hr, hre⟩ := searchQueryRows_mem table name brand limit e he
    obtain ⟨c, hc, hcne⟩ := hcodes r hr
    rw [← hpe, hre]
    simpa [scanRow, extractRow, hc] using hcne

/-- Counterexample to C5 as stated: a snapshot row with a NULL code
column matches a brand-and-name search and is returned with an empty
code string, so returned codes are not always non-empty. -/
theorem search_null_code_counterexample :
    (searchProductsByBrandAndName [nullCodeRow] (("N").data) (("B").data) 5).map
      (fun p => p.code) = [[]] := by
  decide

/-- Witness for C5: a single-row table with code X searched with limit 2. -/
theorem search_limit_and_codes_witness :
    (searchProductsByBrandAndName [goodCodeRow] (("N").data) (("B").data) 2).length ≤ 2 ∧
    (scanRow (extractRow goodCodeRow)).code ≠ [] := by
  have h := search_limit_and_codes [goodCodeRow] (("N").data) (("B").data) 2 (by
    intro r hr
    rw [List.mem_singleton] at hr
    subst hr
    exact ⟨("X").data, rfl, by decide⟩)
  have hres : searchProductsByBrandAndName [goodCodeRow] (("N").data) (("B").data) 2 =
      [scanRow (extractRow goodCodeRow)] := by rfl
  exact ⟨h.1, h.2 (scanRow (extractRow goodCodeRow)) (hres ▸ List.mem_singleton.mpr rfl)⟩

/-- C6 (amended): idempotence in the claimed form holds exactly on inputs
whose decoded mapping is empty: the decoder accepts only a JSON array of
objects, while the JSON re-serialization of the decoded mapping is a
JSON object, which the decoder rejects, degrading to the empty mapping;
for x with decode(x) = empty the equation holds. -/
theorem decode_idempotent_on_empty (x : List Char)
    (h : decodeNutriments x = []) :
    decodeNutriments (encodeNutrientsMap (decodeNutriments x)) = decodeNutriments x := by
  rw [h]
  rfl

/-- Counterexample to C6 as stated: a well-formed one-nutrient input
decodes to a non-empty mapping, but decoding the JSON re-serialization
of that mapping yields the empty mapping, which differs from it. -/
theorem decode_reencode_not_idempotent :
    decodeNutriments c6Input =
      [((("fat").data), Json.obj [((("name").data), Json.str (("fat").data))])] ∧
    decodeNutriments (encodeNutrientsMap (decodeNutriments c6Input)) = [] ∧
    decodeNutriments (encodeNutrientsMap (decodeNutriments c6Input)) ≠
      decodeNutriments c6Input := by
  refine ⟨by decide, by decide, by decide⟩

/-- Witness for C6: the empty-array input decodes to the empty mapping
and the idempotence equation holds there. -/
theorem decode_idempotent_on_empty_witness :
    decodeNutriments (encodeNutrientsMap (decodeNutriments (("[]").data))) =
      decodeNutriments (("[]").data) := by
  exact decode_idempotent_on_empty (("[]").data) (by decide)

end OFF
